import Mathlib

/-!
Shallow embedding of `src/ashlight.py` (the Ash Light terminal dungeon
crawler) and verification of its specification.

Modelling conventions:
* Python `(y, x)` integer tuples become `Pos := Int × Int`.
* The 2D boolean / integer arrays (`visible`, `seen`, `light_levels`) become
  functions `Pos → Bool` / `Pos → Nat`, updated pointwise exactly where the
  Python code assigns.
* `random.random() < 0.2` flicker rolls are modelled by a boolean oracle:
  one `Pos → Bool` per light source per frame (`flick : Nat → Pos → Bool`,
  indexed by the source's position in the torch list).  Each in-range cell is
  visited exactly once per source per frame, so a per-(source, cell) oracle
  is a faithful account of the sequence of independent rolls.
* `random.randint` draws in `random_empty` are modelled by a stream of
  candidate positions that the rejection loop consumes.
* Fallible Python operations (`ord` on a string, list indexing) return
  `Except` / `Option`; `sys.exit(0)` on victory is modelled by setting the
  `exited` flag.
-/

namespace Ashlight

/-- Grid position, Python's `(y, x)` tuple. -/
abbrev Pos := Int × Int

-- Map constants (ashlight.py lines 15-19)
def WIDTH : Int := 40
def HEIGHT : Int := 15
def VISION_RADIUS : Nat := 3
def TORCH_RADIUS : Nat := 3
def TORCH_COUNT : Nat := 3

-- Glyph constants (lines 21-27)
def WALL : Char := '#'
def FLOOR : Char := '.'
def PLAYER : Char := '@'
def TREASURE : Char := 'K'
def EXIT : Char := 'E'
def TORCH : Char := '!'
def FOG : Char := ' '

-- Arrow key escape sequences (lines 30-33)
def UP : String := "\x1b[A"
def DOWN : String := "\x1b[B"
def LEFT : String := "\x1b[D"
def RIGHT : String := "\x1b[C"

/-- The `DIRS` dictionary (lines 36-41), as an association list. -/
def DIRS : List (String × (Int × Int)) :=
  [(UP, (-1, 0)), (DOWN, (1, 0)), (LEFT, (0, -1)), (RIGHT, (0, 1))]

/-- Python's `DIRS[cmd]` together with the `cmd in DIRS` test. -/
def lookupDir (cmd : String) : Option (Int × Int) :=
  (DIRS.find? (fun p => p.1 == cmd)).map (·.2)

/-- The mutable state of `class Game` (lines 45-63).  The torch list keeps
the `(None, None)` sentinel of line 51 as `none`; a placed torch at `p` is
`some p`.  `exited` models `sys.exit(0)` being reached (line 187);
rendering side effects (console printing) are external and carry no state. -/
structure Game where
  map : Pos → Char
  visible : Pos → Bool
  light_levels : Pos → Nat
  seen : Pos → Bool
  torches : List (Option Pos)
  torch_count : Nat
  player_pos : Pos
  treasure_pos : List Pos
  collected_treasures : Finset Pos
  exit_pos : Pos
  has_treasure : Bool
  message : Option String
  message_style : String
  running : Bool
  exited : Bool

/-- `in_bounds` (lines 83-84). -/
def in_bounds (y x : Int) : Bool :=
  decide (0 ≤ y ∧ y < HEIGHT ∧ 0 ≤ x ∧ x < WIDTH)

/-- The three arrays recomputed by `update_visibility`. -/
structure Vis where
  visible : Pos → Bool
  seen : Pos → Bool
  light : Pos → Nat

/-- Pointwise assignment to a boolean field array. -/
def setB (f : Pos → Bool) (p : Pos) (v : Bool) : Pos → Bool :=
  fun q => if q = p then v else f q

/-- Pointwise assignment to an integer field array. -/
def setN (f : Pos → Nat) (p : Pos) (v : Nat) : Pos → Nat :=
  fun q => if q = p then v else f q

/-- The offsets `range(-radius, radius + 1)` of lines 91-92. -/
def offs (r : Nat) : List Int :=
  (List.range (2 * r + 1)).map (fun (i : Nat) => (i : Int) - (r : Int))

/-- The nested `(dy, dx)` loop order of lines 91-92: `dy` outer, `dx` inner. -/
def offsPairs (r : Nat) : List (Int × Int) :=
  (offs r).flatMap (fun dy => (offs r).map (fun dx => (dy, dx)))

/-- One iteration of the inner loop body of `light_radius` (lines 93-102).
`f` is the flicker oracle for this source and frame. -/
def lightStep (center : Pos) (radius : Nat) (flicker : Bool) (f : Pos → Bool)
    (st : Vis) (o : Int × Int) : Vis :=
  let ny := center.1 + o.1
  let nx := center.2 + o.2
  if in_bounds ny nx then
    let dist := o.1.natAbs + o.2.natAbs
    if dist ≤ radius then
      let intensity := max 0 (radius - dist)
      let intensity := if flicker && f (ny, nx) then max 0 (intensity - 1) else intensity
      { visible := setB st.visible (ny, nx) true
        seen := setB st.seen (ny, nx) true
        light := setN st.light (ny, nx) (max (st.light (ny, nx)) intensity) }
    else st
  else st

/-- `light_radius` (lines 90-102): fold the loop body over all offsets. -/
def light_radius (center : Pos) (radius : Nat) (flicker : Bool) (f : Pos → Bool)
    (st : Vis) : Vis :=
  (offsPairs radius).foldl (lightStep center radius flicker f) st

/-- The body of the `for t in self.torches` loop of lines 104-109.  The
enumeration index `it.1` selects this source's flicker oracle. -/
def updStep (tc : Nat) (player : Pos) (flick : Nat → Pos → Bool)
    (st : Vis) (it : Nat × Option Pos) : Vis :=
  match it.2 with
  | none => if tc > 0 then light_radius player VISION_RADIUS true (flick it.1) st else st
  | some t => light_radius t TORCH_RADIUS true (flick it.1) st

/-- `update_visibility` (lines 86-109): reset `visible` and `light_levels`
(lines 87-88), then run every torch through `light_radius`. -/
def update_visibility (flick : Nat → Pos → Bool) (g : Game) : Game :=
  let st0 : Vis := { visible := fun _ => false, seen := g.seen, light := fun _ => 0 }
  let st := (g.torches.enum).foldl (updStep g.torch_count g.player_pos flick) st0
  { g with visible := st.visible, seen := st.seen, light_levels := st.light }

/-- `get_tile_style` (lines 111-120).  The Python list indexing
`[...][brightness]` raises `IndexError` when `brightness` is out of range;
this is modelled by `List.get?`, so the result is `none` exactly when the
source would raise. -/
def get_tile_style (g : Game) (p : Pos) : Option String :=
  let brightness := g.light_levels p
  if brightness = 0 then some "dim"
  else if g.map p = WALL then
    ["grey50", "red3", "dark_red", "bold red"].get? brightness
  else if g.map p = FLOOR then
    ["grey50", "red3", "dark_red", "bold red"].get? brightness
  else some "white"

/-- The per-cell body of the render loop (lines 128-153): what glyph and
style this cell contributes to the frame.  `none` models the `IndexError`
that `get_tile_style` would raise at line 134 (the style is computed before
the entity checks, exactly as in the source). -/
def renderCell (g : Game) (p : Pos) : Option (Char × String) :=
  if p = g.player_pos then some (PLAYER, "bold yellow")
  else if g.visible p then
    (get_tile_style g p).bind (fun style =>
      if p ∈ g.treasure_pos ∧ p ∉ g.collected_treasures then some (TREASURE, "bold magenta")
      else if p = g.exit_pos then some (EXIT, "bold cyan")
      else if some p ∈ g.torches then some (TORCH, "bold red")
      else some (g.map p, style))
  else if g.seen p then
    (if g.map p = WALL ∨ g.map p = FLOOR then some (g.map p, "grey23")
     else some (FOG, "dim"))
  else some (FOG, "dim")

/-- Modelled from the spec (section 4.4 Render Projector): the per-cell
precedence contract, written following the spec's words — player first;
else if currently lit: item, else exit, else placed torch, else the grid
symbol styled by the brightness-to-style lookup; else if ever-seen: the
grid symbol in the fixed dim remembered style, collapsing non-Wall/Floor
content to the fog glyph; else the fog glyph in the dimmest style.  Entity
overlays appear only in the currently-lit branch. -/
def renderCellSpec (g : Game) (p : Pos) : Option (Char × String) :=
  if p = g.player_pos then some (PLAYER, "bold yellow")
  else if g.visible p then
    if p ∈ g.treasure_pos ∧ p ∉ g.collected_treasures then some (TREASURE, "bold magenta")
    else if p = g.exit_pos then some (EXIT, "bold cyan")
    else if some p ∈ g.torches then some (TORCH, "bold red")
    else (get_tile_style g p).map (fun style => (g.map p, style))
  else if g.seen p then
    (if g.map p = WALL ∨ g.map p = FLOOR then some (g.map p, "grey23")
     else some (FOG, "dim"))
  else some (FOG, "dim")

/-- `set_message` (lines 226-228). -/
def set_message (g : Game) (text : String) (style : String) : Game :=
  { g with message := some text, message_style := style }

/-- `move` (lines 167-187).  The victory branch's `sys.exit(0)` is modelled
by setting `exited`. -/
def move (dy dx : Int) (g : Game) : Game :=
  let ny := g.player_pos.1 + dy
  let nx := g.player_pos.2 + dx
  if in_bounds ny nx ∧ g.map (ny, nx) ≠ WALL then
    let g1 := { g with player_pos := (ny, nx) }
    if (ny, nx) ∈ g.treasure_pos ∧ (ny, nx) ∉ g.collected_treasures then
      let g2 := { g1 with collected_treasures := insert (ny, nx) g1.collected_treasures }
      let n := g2.collected_treasures.card
      let g3 := set_message g2 ("You found a key! (" ++ toString n ++ "/3)") "bold magenta"
      let g4 :=
        if n = 2 then
          set_message g3 "You hear a distant wail... Something ancient has stirred.\nThe dead do not rest easy in this place. And now, they know you\x27re here." "bold red"
        else g3
      if n = 3 then
        set_message { g4 with has_treasure := true }
          "You have all three keys! The exit is now your only hope." "bold green"
      else g4
    else if (ny, nx) = g.exit_pos ∧ g.has_treasure then
      { set_message g1 "You escaped with the treasure! Victory!" "bold green" with exited := true }
    else g1
  else g

/-- `place_torch` (lines 189-194).  The membership test compares the
player's concrete position against the torch list; the `(None, None)`
sentinel never equals a concrete position, exactly as in Python. -/
def place_torch (g : Game) : Game :=
  if g.torch_count > 0 ∧ some g.player_pos ∉ g.torches then
    let torches1 := g.torches ++ [some g.player_pos]
    let tc := g.torch_count - 1
    { g with
      torches := if tc = 0 then torches1.filter (fun t => decide (t ≠ none)) else torches1,
      torch_count := tc }
  else g

/-- The placed (non-sentinel) torches of a game. -/
def placedTorches (g : Game) : List Pos :=
  g.torches.filterMap id

/-- Python's `ord` applied to the string `getch` returned: succeeds with the
code point only on strings of length exactly 1, otherwise raises
`TypeError` (modelled as `Except.error ()`). -/
def pyOrd (s : String) : Except Unit Nat :=
  match s.data with
  | [c] => .ok c.toNat
  | _ => .error ()

/-- `checkEnter` (lines 223-224): `ord(cmd) in (10, 13)`; propagates the
`TypeError` that `ord` raises on multi-character strings. -/
def checkEnter (cmd : String) : Except Unit Bool :=
  match pyOrd cmd with
  | .ok n => .ok (decide (n = 10 ∨ n = 13))
  | .error e => .error e

/-- The dispatch of one main-loop iteration on a key already read
(lines 244-247): a direction key moves, else `checkEnter` decides torch
placement; any exception it raises aborts the process (no handler exists
in `main`). -/
def dispatch (g : Game) (cmd : String) : Except Unit Game :=
  match lookupDir cmd with
  | some d => .ok (move d.1 d.2 g)
  | none =>
    match checkEnter cmd with
    | .ok true => .ok (place_torch g)
    | .ok false => .ok g
    | .error e => .error e

/-- One full turn of the main loop (lines 240-247): `render` recomputes
visibility (line 125) before the key is read, then the key is dispatched. -/
def turn (flick : Nat → Pos → Bool) (g : Game) (cmd : String) : Except Unit Game :=
  dispatch (update_visibility flick g) cmd

/-- The `title_screen` input loop (lines 218-221) run against a stream of
keys: returns the unconsumed stream on the first `' '`, and `none` when the
stream is exhausted (the real loop would still be blocking for input). -/
def title_screen : List String → Option (List String)
  | [] => none
  | k :: ks => if k = " " then some ks else title_screen ks

/-- An element of the heterogeneous `occupied` list of line 79: Python's
`[pos for pos in [self.player_pos, self.treasure_pos, self.exit_pos] if pos
is not None]` mixes position tuples with the treasure *list* itself. -/
inductive Occ where
  | pos : Pos → Occ
  | posList : List Pos → Occ

/-- Python `==` between the candidate tuple `(y, x)` and an element of
`occupied`: a tuple never equals a list, so a `posList` entry never
matches. -/
def occMem (c : Pos) : Occ → Bool
  | .pos q => decide (c = q)
  | .posList _ => false

/-- `random_empty` (lines 75-81) with the `randint` draws supplied as a
stream of candidate positions; returns the accepted position and the
unconsumed stream, or `none` when the stream runs dry (the real loop keeps
drawing). -/
def random_empty (grid : Pos → Char) (occ : List Occ) :
    List Pos → Option (Pos × List Pos)
  | [] => none
  | c :: rest =>
    if grid c = FLOOR ∧ occ.any (occMem c) = false then some (c, rest)
    else random_empty grid occ rest

/-- `generate_map` (lines 65-73) with the `random.random() < 0.1` wall
rolls supplied as an oracle. -/
def generate_map (wallRoll : Pos → Bool) : Pos → Char :=
  fun p =>
    if p.2 = 0 ∨ p.2 = WIDTH - 1 ∨ p.1 = 0 ∨ p.1 = HEIGHT - 1 then WALL
    else if wallRoll p then WALL else FLOOR

/-- The position-drawing part of `Game.__init__` (lines 56-59).  The player
draw sees an empty `occupied` list (all three attributes are `None`); each
of the three treasure draws sees only the player (inside the list
comprehension `self.treasure_pos` is still `None` — it is assigned only
after the comprehension finishes); the exit draw sees the player and the
treasure *list object*, which `occMem` can never match. -/
def init_positions (grid : Pos → Char) (stream : List Pos) :
    Option (Pos × List Pos × Pos) :=
  match random_empty grid [] stream with
  | none => none
  | some (player, s1) =>
    match random_empty grid [.pos player] s1 with
    | none => none
    | some (t1, s2) =>
      match random_empty grid [.pos player] s2 with
      | none => none
      | some (t2, s3) =>
        match random_empty grid [.pos player] s3 with
        | none => none
        | some (t3, s4) =>
          match random_empty grid [.pos player, .posList [t1, t2, t3]] s4 with
          | none => none
          | some (ex, _) => some (player, [t1, t2, t3], ex)

/-- Manhattan distance between two positions, the `dist` of line 95. -/
def manhattan (a b : Pos) : Nat :=
  (b.1 - a.1).natAbs + (b.2 - a.2).natAbs

/-- Whether a source at `center` with radius `radius` reaches cell `c`
(lines 94-96): in bounds and within Manhattan distance. -/
def reaches (center : Pos) (radius : Nat) (c : Pos) : Bool :=
  in_bounds c.1 c.2 && decide (manhattan center c ≤ radius)

/-- The intensity contribution of a single source at `center` with radius
`radius` to cell `c`, under flicker flag `fl` and flicker oracle `f`
(lines 99-101): `max(0, radius - dist)`, reduced by 1 (floored at 0) when
the flicker roll fires; `0` when the source does not reach the cell. -/
def contrib (center : Pos) (radius : Nat) (fl : Bool) (f : Pos → Bool) (c : Pos) : Nat :=
  if reaches center radius c then
    (if fl && f c then radius - manhattan center c - 1 else radius - manhattan center c)
  else 0

/-- Whether entry `it` of the enumerated torch list is an active source
reaching cell `c`: the `(None, None)` sentinel is the player's light,
active only while `torch_count > 0` (lines 105-107). -/
def srcReach (tc : Nat) (player : Pos) (it : Nat × Option Pos) (c : Pos) : Bool :=
  match it.2 with
  | none => decide (tc > 0) && reaches player VISION_RADIUS c
  | some t => reaches t TORCH_RADIUS c

/-- The intensity contribution of entry `it` of the enumerated torch list
to cell `c`; an inactive player sentinel contributes `0`. -/
def srcContrib (tc : Nat) (player : Pos) (flick : Nat → Pos → Bool)
    (it : Nat × Option Pos) (c : Pos) : Nat :=
  match it.2 with
  | none => if tc > 0 then contrib player VISION_RADIUS true (flick it.1) c else 0
  | some t => contrib t TORCH_RADIUS true (flick it.1) c

/-- A flicker oracle on which no roll ever fires. -/
def flick0 : Nat → Pos → Bool := fun _ _ => false

/-- A concrete freshly-started game state used to instantiate theorems:
an all-floor map, the sentinel-only torch list, a full pool, and the player
at `(1, 1)`, as after `Game.__init__` on a wall-free interior. -/
def baseGame : Game where
  map := fun _ => FLOOR
  visible := fun _ => false
  light_levels := fun _ => 0
  seen := fun q => decide (q = (5, 5))
  torches := [none]
  torch_count := TORCH_COUNT
  player_pos := (1, 1)
  treasure_pos := []
  collected_treasures := ∅
  exit_pos := (13, 38)
  has_treasure := false
  message := none
  message_style := "white"
  running := true
  exited := false

/-! ## Pointwise characterization of the lighting recomputation -/

theorem mem_offs {r : Nat} {a : Int} : a ∈ offs r ↔ -(r : Int) ≤ a ∧ a ≤ r := by
  constructor
  · intro h
    unfold offs at h
    rw [List.mem_map] at h
    obtain ⟨i, h1, h2⟩ := h
    rw [List.mem_range] at h1
    omega
  · intro h
    unfold offs
    rw [List.mem_map]
    refine ⟨(a + r).toNat, ?_, ?_⟩
    · rw [List.mem_range]; omega
    · omega

theorem mem_offsPairs {r : Nat} {o : Int × Int} :
    o ∈ offsPairs r ↔ (-(r : Int) ≤ o.1 ∧ o.1 ≤ r) ∧ (-(r : Int) ≤ o.2 ∧ o.2 ≤ r) := by
  obtain ⟨a, b⟩ := o
  simp only [offsPairs, List.mem_flatMap, List.mem_map]
  constructor
  · rintro ⟨dy, hdy, dx, hdx, h⟩
    rw [Prod.mk.injEq] at h
    obtain ⟨rfl, rfl⟩ := h
    exact ⟨mem_offs.1 hdy, mem_offs.1 hdx⟩
  · rintro ⟨h1, h2⟩
    exact ⟨a, mem_offs.2 h1, b, mem_offs.2 h2, rfl⟩

theorem lightStep_visible_eq (center : Pos) (r : Nat) (fl : Bool) (f : Pos → Bool)
    (st : Vis) (o : Int × Int) (c : Pos) :
    (lightStep center r fl f st o).visible c =
      (st.visible c ||
        (decide (c = (center.1 + o.1, center.2 + o.2)) &&
          (in_bounds (center.1 + o.1) (center.2 + o.2) &&
            decide (o.1.natAbs + o.2.natAbs ≤ r)))) := by
  by_cases hb : in_bounds (center.1 + o.1) (center.2 + o.2) = true <;>
    by_cases hd : o.1.natAbs + o.2.natAbs ≤ r <;>
      by_cases hc : c = (center.1 + o.1, center.2 + o.2) <;>
        simp [lightStep, setB, hb, hd, hc]

theorem lightStep_seen_eq (center : Pos) (r : Nat) (fl : Bool) (f : Pos → Bool)
    (st : Vis) (o : Int × Int) (c : Pos) :
    (lightStep center r fl f st o).seen c =
      (st.seen c ||
        (decide (c = (center.1 + o.1, center.2 + o.2)) &&
          (in_bounds (center.1 + o.1) (center.2 + o.2) &&
            decide (o.1.natAbs + o.2.natAbs ≤ r)))) := by
  by_cases hb : in_bounds (center.1 + o.1) (center.2 + o.2) = true <;>
    by_cases hd : o.1.natAbs + o.2.natAbs ≤ r <;>
      by_cases hc : c = (center.1 + o.1, center.2 + o.2) <;>
        simp [lightStep, setB, hb, hd, hc]

theorem lightStep_light_eq (center : Pos) (r : Nat) (fl : Bool) (f : Pos → Bool)
    (st : Vis) (o : Int × Int) (c : Pos) :
    (lightStep center r fl f st o).light c =
      max (st.light c)
        (if c = (center.1 + o.1, center.2 + o.2) ∧
            in_bounds (center.1 + o.1) (center.2 + o.2) = true ∧
            o.1.natAbs + o.2.natAbs ≤ r then
          (if fl && f c then r - (o.1.natAbs + o.2.natAbs) - 1
           else r - (o.1.natAbs + o.2.natAbs))
         else 0) := by
  by_cases hb : in_bounds (center.1 + o.1) (center.2 + o.2) = true <;>
    by_cases hd : o.1.natAbs + o.2.natAbs ≤ r <;>
      by_cases hc : c = (center.1 + o.1, center.2 + o.2) <;>
        simp [lightStep, setB, setN, hb, hd, hc, Nat.zero_max]

/-- Bridging lemma: the loop hits cell `c` from offset `o` exactly when `o`
is the offset of `c` from the center and the source reaches `c`. -/
theorem hit_iff (center : Pos) (r : Nat) (o : Int × Int) (c : Pos) :
    (c = (center.1 + o.1, center.2 + o.2) ∧
      in_bounds (center.1 + o.1) (center.2 + o.2) = true ∧
      o.1.natAbs + o.2.natAbs ≤ r) ↔
    ((c.1 - center.1, c.2 - center.2) = o ∧ reaches center r c = true) := by
  unfold reaches in_bounds manhattan HEIGHT WIDTH
  simp only [Prod.ext_iff, Bool.and_eq_true, decide_eq_true_iff]
  omega

theorem lightFold_visible (center : Pos) (r : Nat) (fl : Bool) (f : Pos → Bool) (c : Pos) :
    ∀ (L : List (Int × Int)) (st : Vis),
      ((L.foldl (lightStep center r fl f) st).visible c = true ↔
        st.visible c = true ∨
          ((c.1 - center.1, c.2 - center.2) ∈ L ∧ reaches center r c = true))
  | [], st => by simp
  | o :: t, st => by
    rw [List.foldl_cons, lightFold_visible center r fl f c t, lightStep_visible_eq]
    simp only [Bool.or_eq_true, Bool.and_eq_true, decide_eq_true_iff, List.mem_cons]
    rw [show (c = (center.1 + o.1, center.2 + o.2) ∧
          in_bounds (center.1 + o.1) (center.2 + o.2) = true ∧
          o.1.natAbs + o.2.natAbs ≤ r) ↔
        ((c.1 - center.1, c.2 - center.2) = o ∧ reaches center r c = true) from
      hit_iff center r o c]
    tauto

theorem lightFold_seen (center : Pos) (r : Nat) (fl : Bool) (f : Pos → Bool) (c : Pos) :
    ∀ (L : List (Int × Int)) (st : Vis),
      ((L.foldl (lightStep center r fl f) st).seen c = true ↔
        st.seen c = true ∨
          ((c.1 - center.1, c.2 - center.2) ∈ L ∧ reaches center r c = true))
  | [], st => by simp
  | o :: t, st => by
    rw [List.foldl_cons, lightFold_seen center r fl f c t, lightStep_seen_eq]
    simp only [Bool.or_eq_true, Bool.and_eq_true, decide_eq_true_iff, List.mem_cons]
    rw [show (c = (center.1 + o.1, center.2 + o.2) ∧
          in_bounds (center.1 + o.1) (center.2 + o.2) = true ∧
          o.1.natAbs + o.2.natAbs ≤ r) ↔
        ((c.1 - center.1, c.2 - center.2) = o ∧ reaches center r c = true) from
      hit_iff center r o c]
    tauto

theorem lightFold_light (center : Pos) (r : Nat) (fl : Bool) (f : Pos → Bool) (c : Pos) :
    ∀ (L : List (Int × Int)) (st : Vis),
      (L.foldl (lightStep center r fl f) st).light c =
        max (st.light c)
          (if (c.1 - center.1, c.2 - center.2) ∈ L ∧ reaches center r c = true then
            (if fl && f c then r - manhattan center c - 1 else r - manhattan center c)
           else 0)
  | [], st => by simp
  | o :: t, st => by
    rw [List.foldl_cons, lightFold_light center r fl f c t, lightStep_light_eq]
    have hval : (if c = (center.1 + o.1, center.2 + o.2) ∧
          in_bounds (center.1 + o.1) (center.2 + o.2) = true ∧
          o.1.natAbs + o.2.natAbs ≤ r then
        (if fl && f c then r - (o.1.natAbs + o.2.natAbs) - 1
         else r - (o.1.natAbs + o.2.natAbs))
       else 0)
        = (if (c.1 - center.1, c.2 - center.2) = o ∧ reaches center r c = true then
            (if fl && f c then r - manhattan center c - 1 else r - manhattan center c)
           else 0) := by
      by_cases h : c = (center.1 + o.1, center.2 + o.2) ∧
          in_bounds (center.1 + o.1) (center.2 + o.2) = true ∧
          o.1.natAbs + o.2.natAbs ≤ r
      · rw [if_pos h, if_pos ((hit_iff center r o c).1 h)]
        obtain ⟨hc, -, -⟩ := h
        have hm : manhattan center c = o.1.natAbs + o.2.natAbs := by
          rw [hc]; unfold manhattan; omega
        rw [hm]
      · rw [if_neg h, if_neg (fun hh => h ((hit_iff center r o c).2 hh))]
    rw [hval]
    simp only [List.mem_cons]
    split_ifs <;> first | omega | tauto

theorem light_radius_visible (center : Pos) (r : Nat) (fl : Bool) (f : Pos → Bool)
    (st : Vis) (c : Pos) :
    ((light_radius center r fl f st).visible c = true ↔
      st.visible c = true ∨ reaches center r c = true) := by
  unfold light_radius
  rw [lightFold_visible]
  constructor
  · rintro (h | ⟨-, h⟩)
    · exact Or.inl h
    · exact Or.inr h
  · rintro (h | h)
    · exact Or.inl h
    · refine Or.inr ⟨?_, h⟩
      have hm : manhattan center c ≤ r := by
        unfold reaches at h
        rw [Bool.and_eq_true, decide_eq_true_iff] at h
        exact h.2
      rw [mem_offsPairs]
      unfold manhattan at hm
      refine ⟨⟨?_, ?_⟩, ?_, ?_⟩ <;> omega

theorem light_radius_seen (center : Pos) (r : Nat) (fl : Bool) (f : Pos → Bool)
    (st : Vis) (c : Pos) :
    ((light_radius center r fl f st).seen c = true ↔
      st.seen c = true ∨ reaches center r c = true) := by
  unfold light_radius
  rw [lightFold_seen]
  constructor
  · rintro (h | ⟨-, h⟩)
    · exact Or.inl h
    · exact Or.inr h
  · rintro (h | h)
    · exact Or.inl h
    · refine Or.inr ⟨?_, h⟩
      have hm : manhattan center c ≤ r := by
        unfold reaches at h
        rw [Bool.and_eq_true, decide_eq_true_iff] at h
        exact h.2
      rw [mem_offsPairs]
      unfold manhattan at hm
      refine ⟨⟨?_, ?_⟩, ?_, ?_⟩ <;> omega

theorem light_radius_light (center : Pos) (r : Nat) (fl : Bool) (f : Pos → Bool)
    (st : Vis) (c : Pos) :
    (light_radius center r fl f st).light c = max (st.light c) (contrib center r fl f c) := by
  unfold light_radius
  rw [lightFold_light]
  congr 1
  unfold contrib
  by_cases hR : reaches center r c = true
  · have hmem : (c.1 - center.1, c.2 - center.2) ∈ offsPairs r := by
      have hm : manhattan center c ≤ r := by
        unfold reaches at hR
        rw [Bool.and_eq_true, decide_eq_true_iff] at hR
        exact hR.2
      rw [mem_offsPairs]
      unfold manhattan at hm
      refine ⟨⟨?_, ?_⟩, ?_, ?_⟩ <;> omega
    rw [if_pos ⟨hmem, hR⟩, if_pos hR]
  · rw [if_neg (fun hh => hR hh.2), if_neg hR]

theorem updStep_visible (tc : Nat) (player : Pos) (flick : Nat → Pos → Bool)
    (st : Vis) (it : Nat × Option Pos) (c : Pos) :
    ((updStep tc player flick st it).visible c = true ↔
      st.visible c = true ∨ srcReach tc player it c = true) := by
  obtain ⟨i, t⟩ := it
  cases t with
  | none =>
    by_cases htc : tc > 0 <;>
      simp [updStep, srcReach, htc, light_radius_visible]
  | some p =>
    simp [updStep, srcReach, light_radius_visible]

theorem updStep_seen (tc : Nat) (player : Pos) (flick : Nat → Pos → Bool)
    (st : Vis) (it : Nat × Option Pos) (c : Pos) :
    ((updStep tc player flick st it).seen c = true ↔
      st.seen c = true ∨ srcReach tc player it c = true) := by
  obtain ⟨i, t⟩ := it
  cases t with
  | none =>
    by_cases htc : tc > 0 <;>
      simp [updStep, srcReach, htc, light_radius_seen]
  | some p =>
    simp [updStep, srcReach, light_radius_seen]

theorem updStep_light (tc : Nat) (player : Pos) (flick : Nat → Pos → Bool)
    (st : Vis) (it : Nat × Option Pos) (c : Pos) :
    (updStep tc player flick st it).light c =
      max (st.light c) (srcContrib tc player flick it c) := by
  obtain ⟨i, t⟩ := it
  cases t with
  | none =>
    by_cases htc : tc > 0 <;>
      simp [updStep, srcContrib, htc, light_radius_light]
  | some p =>
    simp [updStep, srcContrib, light_radius_light]

theorem updFold_visible (tc : Nat) (player : Pos) (flick : Nat → Pos → Bool) (c : Pos) :
    ∀ (E : List (Nat × Option Pos)) (st : Vis),
      ((E.foldl (updStep tc player flick) st).visible c = true ↔
        st.visible c = true ∨ E.any (fun it => srcReach tc player it c) = true)
  | [], st => by simp
  | e :: t, st => by
    rw [List.foldl_cons, updFold_visible tc player flick c t, updStep_visible]
    simp only [List.any_cons, Bool.or_eq_true]
    tauto

theorem updFold_seen (tc : Nat) (player : Pos) (flick : Nat → Pos → Bool) (c : Pos) :
    ∀ (E : List (Nat × Option Pos)) (st : Vis),
      ((E.foldl (updStep tc player flick) st).seen c = true ↔
        st.seen c = true ∨ E.any (fun it => srcReach tc player it c) = true)
  | [], st => by simp
  | e :: t, st => by
    rw [List.foldl_cons, updFold_seen tc player flick c t, updStep_seen]
    simp only [List.any_cons, Bool.or_eq_true]
    tauto

theorem updFold_light (tc : Nat) (player : Pos) (flick : Nat → Pos → Bool) (c : Pos) :
    ∀ (E : List (Nat × Option Pos)) (st : Vis),
      (E.foldl (updStep tc player flick) st).light c =
        (E.map (fun it => srcContrib tc player flick it c)).foldl max (st.light c)
  | [], st => rfl
  | e :: t, st => by
    rw [List.foldl_cons, updFold_light tc player flick c t, updStep_light,
      List.map_cons, List.foldl_cons]

/-- Pointwise value of the recomputed `visible` field: a cell is lit iff
some entry of the torch list is an active source reaching it. -/
theorem upd_visible_iff (flick : Nat → Pos → Bool) (g : Game) (c : Pos) :
    ((update_visibility flick g).visible c = true ↔
      (g.torches.enum).any
        (fun it => srcReach g.torch_count g.player_pos it c) = true) := by
  unfold update_visibility
  rw [updFold_visible]
  simp

/-- Pointwise value of the recomputed `seen` field. -/
theorem upd_seen_iff (flick : Nat → Pos → Bool) (g : Game) (c : Pos) :
    ((update_visibility flick g).seen c = true ↔
      g.seen c = true ∨
        (g.torches.enum).any
          (fun it => srcReach g.torch_count g.player_pos it c) = true) := by
  unfold update_visibility
  rw [updFold_seen]

/-- Pointwise value of the recomputed `light_levels` field: the running
`max` accumulated over the per-source contributions, starting from `0`. -/
theorem upd_light_eq (flick : Nat → Pos → Bool) (g : Game) (c : Pos) :
    (update_visibility flick g).light_levels c =
      ((g.torches.enum).map
        (fun it => srcContrib g.torch_count g.player_pos flick it c)).foldl max 0 := by
  show (g.torches.enum.foldl (updStep g.torch_count g.player_pos flick)
      { visible := fun _ => false, seen := g.seen, light := fun _ => 0 }).light c = _
  rw [updFold_light]

theorem contrib_le (center : Pos) (r : Nat) (fl : Bool) (f : Pos → Bool) (c : Pos) :
    contrib center r fl f c ≤ r := by
  unfold contrib
  split_ifs <;> omega

theorem srcContrib_le (tc : Nat) (player : Pos) (flick : Nat → Pos → Bool)
    (it : Nat × Option Pos) (c : Pos) :
    srcContrib tc player flick it c ≤ 3 := by
  obtain ⟨i, t⟩ := it
  cases t with
  | none =>
    by_cases htc : tc > 0 <;> simp [srcContrib, htc]
    exact contrib_le ..
  | some p =>
    exact contrib_le ..

theorem foldl_max_le : ∀ (l : List Nat) (a b : Nat), a ≤ b → (∀ x ∈ l, x ≤ b) →
    l.foldl max a ≤ b
  | [], a, b, ha, _ => ha
  | x :: t, a, b, ha, hl => by
    rw [List.foldl_cons]
    exact foldl_max_le t (max a x) b
      (by have := hl x (List.mem_cons_self x t); omega)
      (fun y hy => hl y (List.mem_cons_of_mem x hy))

/-- The recomputed light level of any cell is at most 3: each source has
radius 3 (`VISION_RADIUS = TORCH_RADIUS = 3`) and contributes at most its
radius. -/
theorem upd_light_le (flick : Nat → Pos → Bool) (g : Game) (c : Pos) :
    (update_visibility flick g).light_levels c ≤ 3 := by
  rw [upd_light_eq]
  refine foldl_max_le _ 0 3 (by omega) ?_
  intro x hx
  rw [List.mem_map] at hx
  obtain ⟨it, -, rfl⟩ := hx
  exact srcContrib_le ..

/-! ## Styling and rendering lemmas -/

theorem get_tile_style_isSome (g : Game) (p : Pos) (h : g.light_levels p ≤ 3) :
    (get_tile_style g p).isSome = true := by
  unfold get_tile_style
  by_cases h0 : g.light_levels p = 0
  · simp [h0]
  · have h123 : g.light_levels p = 1 ∨ g.light_levels p = 2 ∨ g.light_levels p = 3 := by
      omega
    by_cases hw : g.map p = WALL
    · rcases h123 with h1 | h1 | h1 <;> simp [hw, h1]
    · by_cases hf : g.map p = FLOOR
      · rcases h123 with h1 | h1 | h1 <;> simp [hw, hf, h1]
      · simp [hw, hf, h0]

theorem renderCell_eq_spec (g : Game) (p : Pos)
    (h : (get_tile_style g p).isSome = true) :
    renderCell g p = renderCellSpec g p := by
  obtain ⟨s, hs⟩ := Option.isSome_iff_exists.mp h
  unfold renderCell renderCellSpec
  rw [hs]
  rfl

/-! ## State-preservation lemmas for the turn loop -/

theorem move_fields (dy dx : Int) (g : Game) :
    (move dy dx g).seen = g.seen ∧ (move dy dx g).visible = g.visible ∧
      (move dy dx g).torches = g.torches := by
  simp only [move, set_message]
  split_ifs <;> exact ⟨rfl, rfl, rfl⟩

theorem place_torch_fields (g : Game) :
    (place_torch g).seen = g.seen ∧ (place_torch g).visible = g.visible := by
  simp only [place_torch]
  split_ifs <;> exact ⟨rfl, rfl⟩

/-- Any state a successful dispatch can return: the input unchanged, a
torch placement, or a move. -/
theorem dispatch_ok (g g' : Game) (cmd : String) (h : dispatch g cmd = .ok g') :
    g' = g ∨ g' = place_torch g ∨ ∃ d : Int × Int, g' = move d.1 d.2 g := by
  unfold dispatch at h
  rcases hl : lookupDir cmd with - | d <;> rw [hl] at h
  · rcases he : checkEnter cmd with e | b <;> rw [he] at h
    · exact absurd h (by simp)
    · cases b
      · simp only [Except.ok.injEq] at h
        exact Or.inl h.symm
      · simp only [Except.ok.injEq] at h
        exact Or.inr (Or.inl h.symm)
  · simp only [Except.ok.injEq] at h
    exact Or.inr (Or.inr ⟨d, h.symm⟩)

theorem filterMap_id_filter_ne_none (l : List (Option Pos)) :
    (l.filter (fun t => !decide (t = none))).filterMap id = l.filterMap id := by
  induction l with
  | nil => rfl
  | cons x t ih =>
    cases x with
    | none => simpa [List.filter_cons, List.filterMap_cons] using ih
    | some p => simp [List.filter_cons, List.filterMap_cons, ih]

/-! ## Claim theorems -/

/-- Claim C1: for every cell and every frame (flicker oracle), the final
intensity computed by `update_visibility` is the running maximum, starting
from 0, of the per-source contributions `srcContrib` (each of which is
`max(0, R - Manhattan distance)`, possibly reduced by 1 by that source's
flicker roll, and 0 for the inactive player sentinel) — i.e. the maximum
over all active sources' contributions, never their sum, so overlapping
sources never exceed the single brightest contributor. -/
theorem final_intensity_is_max_over_sources (flick : Nat → Pos → Bool) (g : Game)
    (c : Pos) :
    (update_visibility flick g).light_levels c =
      ((g.torches.enum).map
        (fun it => srcContrib g.torch_count g.player_pos flick it c)).foldl max 0 :=
  upd_light_eq flick g c

/-- Claim C2: a cell is marked lit iff some entry of the torch list is an
active source within its radius of the cell in Manhattan distance
(`srcReach` mentions no flicker oracle); the lit flag is invariant under
the flicker oracle; and a lit cell can simultaneously have intensity 0
(distance exactly equal to the radius), so lit and positive intensity are
distinct predicates. -/
theorem lit_iff_some_source_reaches (flick : Nat → Pos → Bool) (g : Game) (c : Pos) :
    ((update_visibility flick g).visible c = true ↔
      ∃ it ∈ g.torches.enum, srcReach g.torch_count g.player_pos it c = true)
    ∧ (∀ flick', (update_visibility flick g).visible c =
        (update_visibility flick' g).visible c)
    ∧ (∃ (g0 : Game) (f0 : Nat → Pos → Bool) (c0 : Pos),
        (update_visibility f0 g0).visible c0 = true ∧
          (update_visibility f0 g0).light_levels c0 = 0) := by
  refine ⟨?_, ?_, ?_⟩
  · rw [upd_visible_iff, List.any_eq_true]
  · intro flick'
    rw [Bool.eq_iff_iff, upd_visible_iff, upd_visible_iff]
  · exact ⟨baseGame, flick0, (1, 4), by decide, by decide⟩

/-- Claim C3: `place_torch` is a silent no-op unless the pool counter is
positive and no already-placed torch occupies the player's position; on
success it decrements the counter by exactly 1, appends exactly one placed
torch at the player's position, and exactly when the counter thereby
reaches 0 the `(None, None)` player-ambient sentinel is filtered out of
the torch list (retiring the player's own light). -/
theorem place_torch_contract (g : Game) :
    (¬ (g.torch_count > 0 ∧ some g.player_pos ∉ g.torches) → place_torch g = g)
    ∧ (g.torch_count > 0 → some g.player_pos ∉ g.torches →
        (place_torch g).torch_count = g.torch_count - 1
        ∧ placedTorches (place_torch g) = placedTorches g ++ [g.player_pos]
        ∧ (g.torch_count = 1 → none ∉ (place_torch g).torches)
        ∧ (1 < g.torch_count →
            (place_torch g).torches = g.torches ++ [some g.player_pos])) := by
  constructor
  · intro hno
    simp only [place_torch]
    rw [if_neg hno]
  · intro htc hmem
    simp only [place_torch]
    rw [if_pos ⟨htc, hmem⟩]
    refine ⟨rfl, ?_, ?_, ?_⟩
    · by_cases h0 : g.torch_count - 1 = 0 <;>
        simp [placedTorches, h0, List.filterMap_append, filterMap_id_filter_ne_none]
    · intro h1
      rw [if_pos (by omega : g.torch_count - 1 = 0)]
      simp [List.mem_filter]
    · intro h1
      rw [if_neg (by omega : ¬ g.torch_count - 1 = 0)]

theorem place_torch_contract_witness :
    place_torch { baseGame with torch_count := 0 } = { baseGame with torch_count := 0 }
    ∧ (place_torch { baseGame with torch_count := 1 }).torch_count =
        ({ baseGame with torch_count := 1 } : Game).torch_count - 1
    ∧ placedTorches (place_torch { baseGame with torch_count := 1 }) =
        placedTorches { baseGame with torch_count := 1 } ++
          [({ baseGame with torch_count := 1 } : Game).player_pos]
    ∧ none ∉ (place_torch { baseGame with torch_count := 1 }).torches := by
  have h1 := (place_torch_contract { baseGame with torch_count := 0 }).1 (by decide)
  have h2 := (place_torch_contract { baseGame with torch_count := 1 }).2
    (by decide) (by decide)
  exact ⟨h1, h2.1, h2.2.1, h2.2.2.1 rfl⟩

/-- Claim C4: per cell, the render projection of any frame (a state just
recomputed by `update_visibility`, as `render` does before drawing) matches
the spec's precedence contract `renderCellSpec`: player first; else the
currently-lit branch with item, exit, torch overlays and the
brightness-styled grid symbol; else the remembered branch; else fog. -/
theorem render_precedence_matches_spec (flick : Nat → Pos → Bool) (g : Game)
    (p : Pos) :
    renderCell (update_visibility flick g) p =
      renderCellSpec (update_visibility flick g) p :=
  renderCell_eq_spec _ _ (get_tile_style_isSome _ _ (upd_light_le flick g p))

/-- Claim C5: if the target cell (player position plus delta) is out of
bounds or a Wall, `move` returns the state unchanged — player position,
torches, pool counter, collected set, flags and message included. -/
theorem move_into_wall_or_oob_is_noop (dy dx : Int) (g : Game)
    (h : in_bounds (g.player_pos.1 + dy) (g.player_pos.2 + dx) = false ∨
      g.map (g.player_pos.1 + dy, g.player_pos.2 + dx) = WALL) :
    move dy dx g = g := by
  simp only [move]
  rw [if_neg]
  rintro ⟨hb, hw⟩
  rcases h with h | h
  · rw [h] at hb
    exact Bool.false_ne_true hb
  · exact hw h

theorem move_into_wall_witness :
    move 0 1 { baseGame with map := fun _ => WALL } =
      { baseGame with map := fun _ => WALL } :=
  move_into_wall_or_oob_is_noop 0 1 _ (Or.inr rfl)

/-- Claim C6: across a full turn of the main loop (visibility recomputation
then command dispatch), `seen` is monotone — a cell once seen stays seen —
and every cell lit in the resulting frame has `seen` set in that frame. -/
theorem seen_monotone_and_lit_implies_seen (flick : Nat → Pos → Bool) (g : Game)
    (cmd : String) (g' : Game) (c : Pos) (h : turn flick g cmd = .ok g') :
    (g.seen c = true → g'.seen c = true) ∧
      (g'.visible c = true → g'.seen c = true) := by
  have hfields : g'.seen = (update_visibility flick g).seen ∧
      g'.visible = (update_visibility flick g).visible := by
    rcases dispatch_ok _ _ _ h with h' | h' | ⟨d, h'⟩
    · rw [h']
      exact ⟨rfl, rfl⟩
    · rw [h']
      exact ⟨(place_torch_fields _).1, (place_torch_fields _).2⟩
    · rw [h']
      exact ⟨(move_fields _ _ _).1, (move_fields _ _ _).2.1⟩
  obtain ⟨hs, hv⟩ := hfields
  rw [hs, hv]
  constructor
  · intro hc
    rw [upd_seen_iff]
    exact Or.inl hc
  · intro hc
    rw [upd_seen_iff]
    rw [upd_visible_iff] at hc
    exact Or.inr hc

theorem seen_monotone_witness :
    (update_visibility flick0 baseGame).seen (5, 5) = true
    ∧ (update_visibility flick0 baseGame).seen (1, 2) = true :=
  ⟨(seen_monotone_and_lit_implies_seen flick0 baseGame "q"
      (update_visibility flick0 baseGame) (5, 5) rfl).1 (by decide),
   (seen_monotone_and_lit_implies_seen flick0 baseGame "q"
      (update_visibility flick0 baseGame) (1, 2) rfl).2 (by decide)⟩

/-- Claim C7 (code bug evidence): an unrecognized multi-character escape
sequence — here Home, `ESC [ H`, exactly what `getch` returns for such a
key — falls through to `checkEnter`, whose `ord(cmd)` raises `TypeError`
on a string of length 3, so the main loop raises instead of ignoring the
key; a single unrecognized character such as `q` is, by contrast, a true
no-op. -/
theorem unrecognized_escape_raises (g : Game) :
    dispatch g "\x1b[H" = .error () ∧ dispatch g "q" = .ok g :=
  ⟨rfl, rfl⟩

/-- Claim C8 (code bug evidence): on a wall-free interior with `randint`
draws `(2,2), (1,1), (1,1), (1,1), (1,1)`, initialization returns all
three keys at `(1,1)` and the exit also at `(1,1)`: the `occupied` check
compares the candidate tuple against the treasure *list object* (never
equal) and `treasure_pos` is still `None` while the keys are drawn, so the
claimed pairwise distinctness fails. -/
theorem init_positions_key_collision :
    init_positions (generate_map (fun _ => false))
        [(2, 2), (1, 1), (1, 1), (1, 1), (1, 1)] =
      some ((2, 2), [(1, 1), (1, 1), (1, 1)], (1, 1)) := by
  decide

/-- Claim C9: after visibility recomputation every cell's stored light
level is at most 3 (the configured radius), and `get_tile_style` on such a
state always returns a style — the four-element brightness list is never
indexed out of range (brightness 0 takes its own branch, leaving indices
1..3). -/
theorem light_level_bounded_and_style_total (flick : Nat → Pos → Bool) (g : Game)
    (c : Pos) :
    (update_visibility flick g).light_levels c ≤ 3
    ∧ (get_tile_style (update_visibility flick g) c).isSome = true :=
  ⟨upd_light_le flick g c, get_tile_style_isSome _ _ (upd_light_le flick g c)⟩

/-- Claim C10: the title screen's input loop returns exactly on the space
key: a space is consumed and the loop exits; any other key — including the
letter `B` named by the on-screen prompt — is ignored and the loop keeps
reading; the loop terminates on a key stream iff the stream contains a
space. -/
theorem title_screen_space_only :
    (∀ ks : List String, title_screen (" " :: ks) = some ks)
    ∧ (∀ (k : String) (ks : List String), k ≠ " " →
        title_screen (k :: ks) = title_screen ks)
    ∧ (∀ ks : List String, (∃ rest, title_screen ks = some rest) ↔ " " ∈ ks) := by
  refine ⟨fun ks => by simp [title_screen],
    fun k ks hk => by simp [title_screen, hk], ?_⟩
  intro ks
  induction ks with
  | nil => simp [title_screen]
  | cons k t ih =>
    by_cases hk : k = " "
    · subst hk
      simp [title_screen]
    · simp [title_screen, hk, ih, List.mem_cons, Ne.symm hk]

theorem title_screen_space_only_witness :
    title_screen ["B", " "] = title_screen [" "]
    ∧ title_screen [" "] = some ([] : List String) :=
  ⟨title_screen_space_only.2.1 "B" [" "] (by decide),
   title_screen_space_only.1 []⟩

end Ashlight
